import Mathlib

/-!
# Verification of the session memory store of `redis-stateful-app`

Shallow embedding of the repository's two `MemoryService` variants and the
`/chat` routers, with theorems settling the spec claims about them.

* `backend/memory_service.py` (the RedisVL `MessageHistory` variant) is
  embedded as the `V2` definitions over `MHState`.
* `stateless-chat-app/backend/memory_service.py` (the plain Redis list
  variant) is embedded over `RedisDB`.
* The HTTP handlers in the two `main.py` files are embedded as
  `chatRequestV2` and `chatRequestLegacy`, with provider adapters treated
  as oracle functions (the spec declares them external collaborators).
-/

namespace RedisChat

/-- A stored chat message: the `{"role": ..., "content": ...}` dictionary
built by both `MemoryService.add_message` implementations. -/
structure Msg where
  role : String
  content : String
deriving DecidableEq, Repr

/-- Configuration: `SESSION_TTL_SECONDS` read in `MemoryService.__init__`. -/
structure Config where
  sessionTtl : Nat
deriving DecidableEq, Repr

/-- The default of `int(os.getenv("SESSION_TTL_SECONDS", 3600))`. -/
def defaultConfig : Config := ⟨3600⟩

/-! ## The plain Redis list tier and the list-based `MemoryService`
(`src/stateless-chat-app/backend/memory_service.py`) -/

/-- State of the Redis database as used by the list-based service: each key
holds a list of stored messages (in Redis a list key exists iff it is
non-empty: `RPUSH` creates it, `DEL` removes it, so the empty list models an
absent key), and each key has an optional remaining time-to-live in seconds
(`none` = absent key or no expiry set). -/
@[ext]
structure RedisDB where
  lists : String → List Msg
  ttl : String → Option Nat

/-- A database with no keys. -/
def emptyDB : RedisDB := ⟨fun _ => [], fun _ => none⟩

/-- Embeds `MemoryService._get_session_key`: `f"chat:session:{session_id}:messages"`. -/
def sessionKey (sessionId : String) : String :=
  "chat:session:" ++ sessionId ++ ":messages"

/-- Redis `LRANGE key start stop` on the stored list: negative indexes count
from the end, out-of-range indexes are clamped, `start > stop` (after
normalization) yields the empty list. -/
def lrange (l : List Msg) (start stop : Int) : List Msg :=
  let n : Int := l.length
  let s : Int := if start < 0 then max (n + start) 0 else start
  let e : Int := min (if stop < 0 then n + stop else stop) (n - 1)
  if s > e then [] else (l.take (e.toNat + 1)).drop s.toNat

/-- Python truthiness of the `Optional[int]` argument `limit`: `None` and
`0` are falsy, every other integer is truthy. -/
def pyTruthy : Option Int → Bool
  | none => false
  | some l => l != 0

/-- Embeds `MemoryService.add_message` (list variant): `RPUSH` the JSON-encoded
message onto `chat:session:{sid}:messages`, then `EXPIRE` that key to the
configured TTL. JSON round-tripping of the role/content dictionary is
modelled as the identity. -/
def addMessage (cfg : Config) (db : RedisDB) (sessionId role content : String) :
    RedisDB where
  lists := fun k =>
    if k = sessionKey sessionId then db.lists k ++ [⟨role, content⟩] else db.lists k
  ttl := fun k =>
    if k = sessionKey sessionId then some cfg.sessionTtl else db.ttl k

/-- Embeds `MemoryService.get_messages` (list variant): `LRANGE key -limit -1`
when `limit` is truthy, else `LRANGE key 0 -1`. -/
def getMessages (db : RedisDB) (sessionId : String) (limit : Option Int) :
    List Msg :=
  let key := sessionKey sessionId
  if pyTruthy limit then lrange (db.lists key) (-(limit.getD 0)) (-1)
  else lrange (db.lists key) 0 (-1)

/-- Embeds `MemoryService.clear_session` (list variant): `DEL` the session key. -/
def clearSession (db : RedisDB) (sessionId : String) : RedisDB where
  lists := fun k => if k = sessionKey sessionId then [] else db.lists k
  ttl := fun k => if k = sessionKey sessionId then none else db.ttl k

/-- Embeds `MemoryService.session_exists` (list variant): `EXISTS key > 0`; a Redis
list key exists iff its list is non-empty. -/
def sessionExists (db : RedisDB) (sessionId : String) : Bool :=
  !(db.lists (sessionKey sessionId)).isEmpty

/-- Embeds `MemoryService.get_message_count` (list variant): `LLEN key`
(0 for an absent key). -/
def getMessageCount (db : RedisDB) (sessionId : String) : Nat :=
  (db.lists (sessionKey sessionId)).length

/-- The tier's TTL clock, advanced by `t` seconds: a key whose remaining TTL
is at most `t` expires (its value is reclaimed as a unit), any other timed
key keeps the remainder. -/
def advanceTime (db : RedisDB) (t : Nat) : RedisDB where
  lists := fun k =>
    match db.ttl k with
    | some r => if r ≤ t then [] else db.lists k
    | none => db.lists k
  ttl := fun k =>
    match db.ttl k with
    | some r => if r ≤ t then none else some (r - t)
    | none => none

/-! ## The RedisVL `MessageHistory` tier and the `MessageHistory`-based
`MemoryService` (`src/backend/memory_service.py`)

The `MessageHistory` object is an external collaborator (the spec's
key/value TTL tier). It is modelled at the level the repository's own code
relies on: each stored message is one Redis key of the shape
`chat_history:{session_tag}:{entry_id}` (the key pattern asserted by the
comments in `add_message` / `clear_session` / `session_exists`), and
`get_recent(session_tag=...)` returns the tag's stored messages in append
order (the most recent `top_k` of them when a count is passed). Strings are
modelled as their character lists where glob/prefix matching is involved. -/

/-- The error an operation on an unreachable tier raises; the spec calls it
`StoreUnavailable`. -/
inductive StoreErr where
  | unavailable
deriving DecidableEq, Repr

/-- One stored entry of the `MessageHistory` index: the session tag it was
added under, the tier-generated entry id that completes its Redis key, and
the message payload. -/
structure MHEntry where
  tag : String
  entryId : String
  msg : Msg
deriving DecidableEq, Repr

/-- The Redis key of an entry: `chat_history:{session_tag}:{entry_id}`. -/
def entryKey (e : MHEntry) : String :=
  "chat_history:" ++ e.tag ++ ":" ++ e.entryId

/-- State of the tier behind the `MessageHistory`-based service: the stored
entries in global append order, per-key TTLs, and a connectivity flag
(`healthy = false` models an unreachable Redis, where every tier call
raises). -/
structure MHState where
  entries : List MHEntry
  ttl : String → Option Nat
  healthy : Bool

/-- Embeds `KEYS f"chat_history:{session_id}:*"`: a key matches iff it starts with
`chat_history:{session_id}:` (for session ids without glob metacharacters,
a trailing-`*` glob is exactly a prefix match on the character sequence). -/
def matchesSession (sessionId key : String) : Bool :=
  ("chat_history:" ++ sessionId ++ ":").data.isPrefixOf key.data

/-- Embeds `MemoryService.add_message` (MessageHistory variant): map role
`assistant` to the internal `llm`, hand the message to
`MessageHistory.add_message`, then `EXPIRE` every existing key matching
`chat_history:{session_id}:*` to the configured TTL. `entryId` is the entry
id the tier generates for the new message. Raises when the tier is
unreachable. -/
def addMessageV2 (cfg : Config) (st : MHState)
    (sessionId role content entryId : String) : Except StoreErr MHState :=
  if st.healthy then
    let mhRole := if role = "assistant" then "llm" else role
    let entries := st.entries ++ [⟨sessionId, entryId, ⟨mhRole, content⟩⟩]
    .ok { entries := entries
          ttl := fun k =>
            if matchesSession sessionId k ∧ entries.any (fun e => entryKey e = k)
            then some cfg.sessionTtl else st.ttl k
          healthy := st.healthy }
  else .error .unavailable

/-- Embeds `MessageHistory.get_recent` (external tier primitive): the messages
stored under the session tag in append order; with a `top_k` count, the most
recent `top_k` of them. Raises when the tier is unreachable. -/
def getRecentV2 (st : MHState) (sessionId : String) (topK : Option Nat) :
    Except StoreErr (List Msg) :=
  if st.healthy then
    let msgs := (st.entries.filter (fun e => e.tag == sessionId)).map (·.msg)
    match topK with
    | some k => .ok (msgs.drop (msgs.length - k))
    | none => .ok msgs
  else .error .unavailable

/-- The read-path role renaming in `get_messages`: `llm` maps back to
`assistant`, every other stored role is returned unchanged. -/
def llmBack (m : Msg) : Msg :=
  if m.role = "llm" then ⟨"assistant", m.content⟩ else m

/-- Embeds `MemoryService.get_messages` (MessageHistory variant): inside a `try`,
call `get_recent` (with `top_k=limit` when `limit` is truthy), then map the
internal `llm` role back to `assistant`; any exception from the tier —
connectivity failures included — is caught and turned into the empty
list. -/
def getMessagesV2 (st : MHState) (sessionId : String) (limit : Option Int) :
    Except StoreErr (List Msg) :=
  let attempt :=
    if pyTruthy limit then getRecentV2 st sessionId (some (limit.getD 0).toNat)
    else getRecentV2 st sessionId none
  match attempt with
  | .ok msgs => .ok (msgs.map llmBack)
  | .error _ => .ok []

/-- Embeds `MemoryService.clear_session` (MessageHistory variant): `KEYS` the
session's pattern and `DEL` every matching key. Raises when the tier is
unreachable. -/
def clearSessionV2 (st : MHState) (sessionId : String) :
    Except StoreErr MHState :=
  if st.healthy then
    .ok { entries := st.entries.filter (fun e => !(matchesSession sessionId (entryKey e)))
          ttl := fun k => if matchesSession sessionId k then none else st.ttl k
          healthy := st.healthy }
  else .error .unavailable

/-- Embeds `MemoryService.session_exists` (MessageHistory variant): `KEYS` the
session's pattern and test whether any key matched. Raises when the tier is
unreachable. -/
def sessionExistsV2 (st : MHState) (sessionId : String) :
    Except StoreErr Bool :=
  if st.healthy then
    .ok (st.entries.any (fun e => matchesSession sessionId (entryKey e)))
  else .error .unavailable

/-- Embeds `MemoryService.get_message_count` (MessageHistory variant): inside a
`try`, count the result of `get_messages`; any exception is caught and
turned into 0. -/
def getMessageCountV2 (st : MHState) (sessionId : String) :
    Except StoreErr Nat :=
  match getMessagesV2 st sessionId none with
  | .ok msgs => .ok msgs.length
  | .error _ => .ok 0

/-! ## The `/chat` routers

Provider adapters are the spec's external collaborators: a stateless
adapter is an oracle `String → String` (it sees only the current message), a
stateful adapter is an oracle `List Msg → String` (it sees the transcript it
is handed). -/

/-- Embeds `ChatMode` from `models.py`. -/
inductive ChatMode where
  | stateless
  | stateful
deriving DecidableEq, Repr

/-- The provider adapters a router run uses (`LLMService.get_response` /
the provider call inside `StatefulLLMService.get_response`). -/
structure ChatDeps where
  statelessReply : String → String
  statefulReply : List Msg → String

/-- The `/chat` handler of `src/backend/main.py`, run with the memory
service initialized. Stateless branch: append the user turn, call the
provider with only the current message, append the assistant turn.
Stateful branch (`StatefulLLMService.get_response`): append the user turn,
fetch the full transcript, call the provider with it, append the assistant
turn. `id1`, `id2` are the tier-generated entry ids of the two appends.
Returns the final tier state and the reply. -/
def chatRequestV2 (cfg : Config) (deps : ChatDeps) (st : MHState)
    (mode : ChatMode) (sessionId msg id1 id2 : String) :
    Except StoreErr (MHState × String) :=
  match mode with
  | .stateless =>
    (addMessageV2 cfg st sessionId "user" msg id1).bind fun st1 =>
      (addMessageV2 cfg st1 sessionId "assistant" (deps.statelessReply msg) id2).map
        fun st2 => (st2, deps.statelessReply msg)
  | .stateful =>
    (addMessageV2 cfg st sessionId "user" msg id1).bind fun st1 =>
      (getMessagesV2 st1 sessionId none).bind fun msgs =>
        (addMessageV2 cfg st1 sessionId "assistant" (deps.statefulReply msgs) id2).map
          fun st2 => (st2, deps.statefulReply msgs)

/-- The `/chat` handler of `src/stateless-chat-app/backend/main.py`.
Its stateless branch calls the provider with the current message and never
touches the memory service (no session id is even assigned); its stateful
branch is `StatefulLLMService.get_response` over the list-based store. -/
def chatRequestLegacy (cfg : Config) (deps : ChatDeps) (db : RedisDB)
    (mode : ChatMode) (sessionId msg : String) : RedisDB × String :=
  match mode with
  | .stateless => (db, deps.statelessReply msg)
  | .stateful =>
    let db1 := addMessage cfg db sessionId "user" msg
    let msgs := getMessages db1 sessionId none
    let reply := deps.statefulReply msgs
    (addMessage cfg db1 sessionId "assistant" reply, reply)

/-! ## Composition helpers used to state the claims -/

/-- Run a sequence of `add_message` calls on the list-based store. -/
def appendAll (cfg : Config) (db : RedisDB) (sessionId : String)
    (msgs : List (String × String)) : RedisDB :=
  msgs.foldl (fun d p => addMessage cfg d sessionId p.1 p.2) db

/-- Run a sequence of `add_message` calls on the `MessageHistory`-based
store; each element is `(role, content, entryId)`. -/
def appendAllV2 (cfg : Config) (st : MHState) (sessionId : String) :
    List (String × String × String) → Except StoreErr MHState
  | [] => .ok st
  | p :: rest =>
    match addMessageV2 cfg st sessionId p.1 p.2.1 p.2.2 with
    | .ok st' => appendAllV2 cfg st' sessionId rest
    | .error e => .error e

/-- Append a batch of messages, then read the session's transcript. -/
def appendThenGetV2 (cfg : Config) (st : MHState) (sessionId : String)
    (msgs : List (String × String × String)) : Except StoreErr (List Msg) :=
  (appendAllV2 cfg st sessionId msgs).bind fun st' =>
    getMessagesV2 st' sessionId none

/-- The transcript of `sessionId` after a `/chat` request on the current
backend. -/
def chatTranscriptAfterV2 (cfg : Config) (deps : ChatDeps) (st : MHState)
    (mode : ChatMode) (sessionId msg id1 id2 : String) :
    Except StoreErr (List Msg) :=
  (chatRequestV2 cfg deps st mode sessionId msg id1 id2).bind fun p =>
    getMessagesV2 p.1 sessionId none

/-- The reply returned by a `/chat` request on the current backend. -/
def chatReplyV2 (cfg : Config) (deps : ChatDeps) (st : MHState)
    (mode : ChatMode) (sessionId msg id1 id2 : String) :
    Except StoreErr String :=
  (chatRequestV2 cfg deps st mode sessionId msg id1 id2).map (·.2)

/-- The TTL of key `k` after an `add_message` on the
`MessageHistory`-based store. -/
def ttlAfterAddV2 (cfg : Config) (st : MHState)
    (sessionId role content entryId k : String) :
    Except StoreErr (Option Nat) :=
  match addMessageV2 cfg st sessionId role content entryId with
  | .ok st' => .ok (st'.ttl k)
  | .error e => .error e

/-- The message count of `target` after clearing `sessionId` on the
`MessageHistory`-based store. -/
def countAfterClearV2 (st : MHState) (sessionId target : String) :
    Except StoreErr Nat :=
  match clearSessionV2 st sessionId with
  | .ok st' => getMessageCountV2 st' target
  | .error e => .error e

/-- The transcript of `target` after clearing `sessionId` on the
`MessageHistory`-based store. -/
def messagesAfterClearV2 (st : MHState) (sessionId target : String)
    (limit : Option Int) : Except StoreErr (List Msg) :=
  match clearSessionV2 st sessionId with
  | .ok st' => getMessagesV2 st' target limit
  | .error e => .error e

/-- Whether `target` exists after clearing `sessionId` on the
`MessageHistory`-based store. -/
def existsAfterClearV2 (st : MHState) (sessionId target : String) :
    Except StoreErr Bool :=
  match clearSessionV2 st sessionId with
  | .ok st' => sessionExistsV2 st' target
  | .error e => .error e

/-! ## Concrete states used by counterexamples and witnesses -/

/-- A session `s` holding one user message, behind an unreachable tier. -/
def downSt : MHState :=
  ⟨[⟨"s", "e1", ⟨"user", "hello"⟩⟩], fun _ => none, false⟩

/-- An empty, reachable tier. -/
def healthyEmptySt : MHState := ⟨[], fun _ => none, true⟩

/-- A reachable tier holding one message for the session id `a:b`. -/
def stAB : MHState := ⟨[⟨"a:b", "e1", ⟨"user", "hi"⟩⟩], fun _ => none, true⟩

/-- A session `s` holding one message `m1`. -/
def db1 : RedisDB := addMessage defaultConfig emptyDB "s" "user" "m1"

/-- A session `s` holding the ten messages `m1 .. m10` in append order. -/
def db10 : RedisDB :=
  appendAll defaultConfig emptyDB "s"
    [("user", "m1"), ("user", "m2"), ("user", "m3"), ("user", "m4"),
     ("user", "m5"), ("user", "m6"), ("user", "m7"), ("user", "m8"),
     ("user", "m9"), ("user", "m10")]

/-- Concrete provider adapters answering `"ok"` to everything. -/
def oracleDeps : ChatDeps := ⟨fun _ => "ok", fun _ => "ok"⟩

/-! ## Helper lemmas -/

theorem lrange_zero_neg_one (l : List Msg) : lrange l 0 (-1) = l := by
  unfold lrange
  simp only
  rcases Nat.eq_zero_or_pos l.length with h | h
  · rw [List.length_eq_zero] at h
    subst h
    decide
  · have h0 : ¬ ((0 : Int) < 0) := by omega
    have hstop : ((-1 : Int) < 0) := by omega
    have hn : (1 : Int) ≤ (l.length : Int) := by exact_mod_cast h
    simp only [if_neg h0, if_pos hstop]
    have hmin : min ((l.length : Int) + -1) ((l.length : Int) - 1)
        = (l.length : Int) - 1 := by omega
    rw [hmin]
    have hng : ¬ ((0 : Int) > (l.length : Int) - 1) := by omega
    rw [if_neg hng]
    have htn : ((l.length : Int) - 1).toNat + 1 = l.length := by omega
    rw [htn, List.take_length]
    simp

theorem lrange_lastN (l : List Msg) (N : Nat) (hN : 1 ≤ N) :
    lrange l (-(N : Int)) (-1) = l.drop (l.length - N) := by
  unfold lrange
  simp only
  rcases Nat.eq_zero_or_pos l.length with h | h
  · rw [List.length_eq_zero] at h
    subst h
    simp only [List.length_nil, Nat.zero_sub, List.drop_nil]
    have hs : (-(N : Int) < 0) := by omega
    rw [if_pos hs]
    have he : ((-1 : Int) < 0) := by omega
    rw [if_pos he]
    have : max ((0 : Int) + -(N : Int)) 0 = 0 := by omega
    simp only [List.length_nil, Int.natCast_zero] at *
    rw [this]
    have hmin : min ((0 : Int) + -1) ((0 : Int) - 1) = -1 := by omega
    rw [hmin]
    have : ((0 : Int) > (-1 : Int)) := by omega
    rw [if_pos this]
  · have hs : (-(N : Int) < 0) := by omega
    have he : ((-1 : Int) < 0) := by omega
    rw [if_pos hs, if_pos he]
    have hmin : min ((l.length : Int) + -1) ((l.length : Int) - 1)
        = (l.length : Int) - 1 := by omega
    rw [hmin]
    have hn1 : (1 : Int) ≤ (l.length : Int) := by exact_mod_cast h
    have hstart : max ((l.length : Int) + -(N : Int)) 0
        = ((l.length - N : Nat) : Int) := by omega
    rw [hstart]
    have hng : ¬ (((l.length - N : Nat) : Int) > (l.length : Int) - 1) := by omega
    rw [if_neg hng]
    have htn : ((l.length : Int) - 1).toNat + 1 = l.length := by omega
    rw [htn, List.take_length, Int.toNat_natCast]

theorem getMessages_none (db : RedisDB) (sessionId : String) :
    getMessages db sessionId none = db.lists (sessionKey sessionId) := by
  unfold getMessages pyTruthy
  simp only [Bool.false_eq_true, if_neg]
  exact lrange_zero_neg_one _


theorem sessionKey_inj {s1 s2 : String} (h : sessionKey s1 = sessionKey s2) :
    s1 = s2 := by
  unfold sessionKey at h
  have hd := congrArg String.data h
  simp only [String.data_append] at hd
  have h2 := List.append_cancel_right hd
  have h3 := List.append_cancel_left h2
  exact congrArg String.mk h3

theorem addMessage_lists_self (cfg : Config) (db : RedisDB)
    (sessionId role content : String) :
    (addMessage cfg db sessionId role content).lists (sessionKey sessionId)
      = db.lists (sessionKey sessionId) ++ [⟨role, content⟩] := by
  simp [addMessage]

theorem addMessage_lists_other (cfg : Config) (db : RedisDB)
    (sessionId role content : String) {k : String} (hk : k ≠ sessionKey sessionId) :
    (addMessage cfg db sessionId role content).lists k = db.lists k := by
  simp [addMessage, hk]

theorem appendAll_lists (cfg : Config) (sessionId : String)
    (msgs : List (String × String)) :
    ∀ db : RedisDB,
      (appendAll cfg db sessionId msgs).lists (sessionKey sessionId)
        = db.lists (sessionKey sessionId) ++ msgs.map (fun p => ⟨p.1, p.2⟩) := by
  induction msgs with
  | nil => intro db; simp [appendAll]
  | cons p rest ih =>
    intro db
    show (appendAll cfg (addMessage cfg db sessionId p.1 p.2) sessionId rest).lists _ = _
    rw [ih, addMessage_lists_self]
    simp

theorem addMessageV2_ok_spec (cfg : Config) (st : MHState)
    (sessionId role content entryId : String) (h : st.healthy = true) :
    ∃ st1, addMessageV2 cfg st sessionId role content entryId = .ok st1 ∧
      st1.healthy = true ∧
      st1.entries = st.entries ++
        [⟨sessionId, entryId, ⟨if role = "assistant" then "llm" else role, content⟩⟩] ∧
      st1.ttl = fun k =>
        if matchesSession sessionId k ∧
           (st.entries ++ [MHEntry.mk sessionId entryId
             (Msg.mk (if role = "assistant" then "llm" else role) content)]).any
             (fun e => entryKey e = k)
        then some cfg.sessionTtl else st.ttl k := by
  refine ⟨{ entries := st.entries ++
              [MHEntry.mk sessionId entryId
                (Msg.mk (if role = "assistant" then "llm" else role) content)]
            ttl := fun k =>
              if matchesSession sessionId k ∧
                 (st.entries ++ [MHEntry.mk sessionId entryId
                   (Msg.mk (if role = "assistant" then "llm" else role) content)]).any
                   (fun e => entryKey e = k)
              then some cfg.sessionTtl else st.ttl k
            healthy := st.healthy }, ?_, h, rfl, rfl⟩
  unfold addMessageV2
  rw [if_pos h]

theorem appendAllV2_spec (cfg : Config) (sessionId : String)
    (msgs : List (String × String × String)) :
    ∀ st : MHState, st.healthy = true →
      ∃ st', appendAllV2 cfg st sessionId msgs = .ok st' ∧
        st'.healthy = true ∧
        st'.entries = st.entries ++ msgs.map (fun p =>
          ⟨sessionId, p.2.2, ⟨if p.1 = "assistant" then "llm" else p.1, p.2.1⟩⟩) := by
  induction msgs with
  | nil => intro st h; exact ⟨st, rfl, h, by simp⟩
  | cons p rest ih =>
    intro st h
    obtain ⟨st1, hstep, hh1, hent1, -⟩ :=
      addMessageV2_ok_spec cfg st sessionId p.1 p.2.1 p.2.2 h
    obtain ⟨st', hrun, hh', hent'⟩ := ih st1 hh1
    refine ⟨st', ?_, hh', ?_⟩
    · simp only [appendAllV2]
      rw [hstep]
      exact hrun
    · rw [hent', hent1]
      simp

theorem getMessagesV2_healthy_none (st : MHState) (sessionId : String)
    (h : st.healthy = true) :
    getMessagesV2 st sessionId none
      = .ok (((st.entries.filter (fun e => e.tag == sessionId)).map (·.msg)).map llmBack) := by
  simp [getMessagesV2, getRecentV2, pyTruthy, h]

theorem llmBack_roundtrip {r : String} (hr : r = "user" ∨ r = "assistant")
    (c : String) :
    llmBack ⟨if r = "assistant" then "llm" else r, c⟩ = ⟨r, c⟩ := by
  rcases hr with h | h <;> subst h <;> simp [llmBack]

/-! ## C2 — role validation on append -/

/-- C2 counterexample: the claim says `append` fails with `InvalidRole` for
any role other than `user`/`assistant`. The code never validates the role:
appending with role `system` succeeds on both store variants and stores the
message, so the claim is false at role `"system"`. -/
theorem addMessage_accepts_invalid_role :
    getMessages (addMessage defaultConfig emptyDB "s" "system" "x") "s" none
      = [⟨"system", "x"⟩] ∧
    (addMessageV2 defaultConfig healthyEmptySt "s" "system" "x" "e1").isOk = true := by
  constructor
  · rw [getMessages_none, addMessage_lists_self]
    rfl
  · rfl

/-- C2 (amended): `append(session_id, role, content)` performs no role
validation at all — for every role string (not just `user`/`assistant`) it
succeeds and appends exactly one message carrying that role; no
`InvalidRole` error exists in the code. -/
theorem addMessage_any_role_appends (cfg : Config) (db : RedisDB)
    (st : MHState) (sessionId role content entryId : String)
    (hh : st.healthy = true) :
    getMessages (addMessage cfg db sessionId role content) sessionId none
      = getMessages db sessionId none ++ [⟨role, content⟩] ∧
    (addMessageV2 cfg st sessionId role content entryId).isOk = true := by
  constructor
  · rw [getMessages_none, getMessages_none, addMessage_lists_self]
  · obtain ⟨st1, hstep, -, -⟩ :=
      addMessageV2_ok_spec cfg st sessionId role content entryId hh
    rw [hstep]
    rfl

/-- C2 witness: the amended claim at role `system` on both variants. -/
theorem addMessage_any_role_appends_witness :
    getMessages (addMessage defaultConfig emptyDB "s2" "system" "x") "s2" none
      = getMessages emptyDB "s2" none ++ [⟨"system", "x"⟩] ∧
    (addMessageV2 defaultConfig healthyEmptySt "s2" "system" "x" "e1").isOk = true :=
  addMessage_any_role_appends defaultConfig emptyDB healthyEmptySt "s2" "system" "x" "e1" rfl

/-! ## C3 — limit semantics of get_transcript -/

/-- C3 counterexample: the claim quantifies over every non-negative `N`,
so at `N = 0` it demands the most recent zero messages, i.e. `[]`. The code
tests `if limit:` and Python treats `0` as falsy, so `limit=0` falls into
the no-limit branch and returns the full transcript: on a session holding
one message, `get_transcript(s, limit=0)` returns that message, not `[]`. -/
theorem getMessages_limit_zero_returns_all :
    getMessages db1 "s" (some 0) ≠ [] ∧
    getMessages db1 "s" (some 0) = [⟨"user", "m1"⟩] := by
  have h : getMessages db1 "s" (some 0) = [⟨"user", "m1"⟩] := rfl
  exact ⟨by rw [h]; exact fun hc => List.noConfusion hc, h⟩

/-- C3 (amended): for every positive `N`, `get_transcript(s, limit=N)`
returns exactly the most recent `N` messages of the transcript in append
order, oldest of the returned set first (the whole transcript when `N ≥ K`);
`limit = 0`, like no limit, returns the full transcript. -/
theorem getMessages_limit_semantics (db : RedisDB) (sessionId : String)
    (N : Nat) (hN : 1 ≤ N) :
    getMessages db sessionId (some (N : Int))
      = (db.lists (sessionKey sessionId)).drop
          ((db.lists (sessionKey sessionId)).length - N) ∧
    getMessages db sessionId (some 0) = db.lists (sessionKey sessionId) ∧
    getMessages db sessionId none = db.lists (sessionKey sessionId) := by
  refine ⟨?_, ?_, getMessages_none db sessionId⟩
  · have ht : pyTruthy (some (N : Int)) = true := by
      simp [pyTruthy]
      omega
    unfold getMessages
    rw [if_pos ht]
    simp only [Option.getD_some]
    exact lrange_lastN _ N hN
  · have hf : pyTruthy (some 0) = false := by simp [pyTruthy]
    unfold getMessages
    rw [if_neg (by simp [hf])]
    exact lrange_zero_neg_one _

/-- C3 witness: the spec's own example — a session `[m1..m10]` with
`limit=3` yields `[m8, m9, m10]`. -/
theorem getMessages_limit_semantics_witness :
    getMessages db10 "s" (some 3)
      = [⟨"user", "m8"⟩, ⟨"user", "m9"⟩, ⟨"user", "m10"⟩] := by
  exact ((getMessages_limit_semantics db10 "s" 3 (by decide)).1).trans rfl

/-! ## C4 — append-order invariant -/

/-- C4 (confirmed): appending a sequence of messages to a session leaves
all previously stored messages unchanged in place and adds the new ones at
the end in append order; in particular, a fresh session ends up holding
exactly the appended sequence, in order. -/
theorem append_order_invariant (cfg : Config) (db : RedisDB)
    (sessionId : String) (msgs : List (String × String)) :
    getMessages (appendAll cfg db sessionId msgs) sessionId none
      = getMessages db sessionId none ++ msgs.map (fun p => ⟨p.1, p.2⟩) ∧
    (db.lists (sessionKey sessionId) = [] →
      getMessages (appendAll cfg db sessionId msgs) sessionId none
        = msgs.map (fun p => ⟨p.1, p.2⟩)) := by
  constructor
  · rw [getMessages_none, getMessages_none, appendAll_lists]
  · intro h0
    rw [getMessages_none, appendAll_lists, h0]
    simp

/-- C4 witness: two appends on a fresh session read back in order. -/
theorem append_order_invariant_witness :
    getMessages (appendAll defaultConfig emptyDB "s"
        [("user", "hello"), ("assistant", "hi")]) "s" none
      = [⟨"user", "hello"⟩, ⟨"assistant", "hi"⟩] :=
  (append_order_invariant defaultConfig emptyDB "s"
    [("user", "hello"), ("assistant", "hi")]).2 rfl

/-! ## More helper lemmas for the V2 store -/

theorem anyFilterEq {α : Type} (p q : α → Bool) (l : List α) :
    (l.filter p).any q = l.any (fun a => p a && q a) := by
  induction l with
  | nil => rfl
  | cons a tl ih => by_cases hp : p a <;> simp [hp, ih]

theorem matchesSession_tag_self (sid : String) (e : MHEntry) (h : e.tag = sid) :
    matchesSession sid (entryKey e) = true := by
  unfold matchesSession entryKey
  rw [h]
  rw [ List.isPrefixOf_iff_prefix]
  have : ("chat_history:" ++ sid ++ ":" ++ e.entryId).data
      = ("chat_history:" ++ sid ++ ":").data ++ e.entryId.data := by
    simp [String.data_append]
  rw [this]
  exact List.prefix_append _ _

theorem getMessagesV2_exists_ok (st : MHState) (sessionId : String)
    (limit : Option Int) :
    ∃ msgs, getMessagesV2 st sessionId limit = .ok msgs := by
  simp only [getMessagesV2]
  cases hA : (if pyTruthy limit
      then getRecentV2 st sessionId (some (limit.getD 0).toNat)
      else getRecentV2 st sessionId none) with
  | error e => exact ⟨[], rfl⟩
  | ok msgs => exact ⟨msgs.map llmBack, rfl⟩

theorem getMessageCountV2_eq (st : MHState) (sessionId : String) :
    getMessageCountV2 st sessionId
      = (getMessagesV2 st sessionId none).map List.length := by
  obtain ⟨msgs, hm⟩ := getMessagesV2_exists_ok st sessionId none
  unfold getMessageCountV2
  rw [hm]
  rfl

theorem clearSessionV2_ok_spec (st : MHState) (sessionId : String)
    (h : st.healthy = true) :
    ∃ st', clearSessionV2 st sessionId = .ok st' ∧
      st'.healthy = true ∧
      st'.entries = st.entries.filter
        (fun e => !(matchesSession sessionId (entryKey e))) ∧
      st'.ttl = fun k =>
        if matchesSession sessionId k then none else st.ttl k := by
  refine ⟨{ entries := st.entries.filter
              (fun e => !(matchesSession sessionId (entryKey e)))
            ttl := fun k => if matchesSession sessionId k then none else st.ttl k
            healthy := st.healthy }, ?_, h, rfl, rfl⟩
  unfold clearSessionV2
  rw [if_pos h]

/-! ## C7 — count consistency -/

/-- C7 (confirmed): on the list-based store `count` is `LLEN` of the same
key `get_transcript` reads in full, so it equals the transcript length at
every state, and is 0 for a session with no stored messages; on the
`MessageHistory`-based store `get_message_count` is defined as the length
of `get_messages`, so the equation holds there at every state as well. -/
theorem count_consistency (db : RedisDB) (st : MHState) (sessionId : String) :
    getMessageCount db sessionId = (getMessages db sessionId none).length ∧
    (db.lists (sessionKey sessionId) = [] → getMessageCount db sessionId = 0) ∧
    getMessageCountV2 st sessionId
      = (getMessagesV2 st sessionId none).map List.length := by
  refine ⟨?_, ?_, getMessageCountV2_eq st sessionId⟩
  · rw [getMessages_none]
    rfl
  · intro h
    unfold getMessageCount
    rw [h]
    rfl

/-- C7 witness: an unknown session has count 0 and count = transcript
length, on both store variants. -/
theorem count_consistency_witness :
    getMessageCount emptyDB "unknown-id" = 0 ∧
    getMessageCount emptyDB "unknown-id"
      = (getMessages emptyDB "unknown-id" none).length ∧
    getMessageCountV2 healthyEmptySt "unknown-id"
      = (getMessagesV2 healthyEmptySt "unknown-id" none).map List.length :=
  ⟨(count_consistency emptyDB healthyEmptySt "unknown-id").2.1 rfl,
   (count_consistency emptyDB healthyEmptySt "unknown-id").1,
   (count_consistency emptyDB healthyEmptySt "unknown-id").2.2⟩

/-! ## C8 — idempotent clear -/

/-- C8 (confirmed): `clear` is a `DEL` (list store) or a pattern-wide key
delete (`MessageHistory` store); on any state, clearing twice equals
clearing once, clearing a non-existent or empty session succeeds, and after
a clear the session does not exist and has count 0. -/
theorem clear_idempotent (db : RedisDB) (st : MHState) (sessionId : String) :
    clearSession (clearSession db sessionId) sessionId = clearSession db sessionId ∧
    sessionExists (clearSession db sessionId) sessionId = false ∧
    getMessageCount (clearSession db sessionId) sessionId = 0 ∧
    (st.healthy = true →
      (clearSessionV2 st sessionId).isOk = true ∧
      existsAfterClearV2 st sessionId sessionId = .ok false ∧
      countAfterClearV2 st sessionId sessionId = .ok 0) := by
  refine ⟨?_, ?_, ?_, ?_⟩
  · apply RedisDB.ext <;>
      funext k <;> by_cases hk : k = sessionKey sessionId <;> simp [clearSession, hk]
  · simp [clearSession, sessionExists]
  · simp [clearSession, getMessageCount]
  · intro hh
    obtain ⟨st', hclr, hh', hent, -⟩ := clearSessionV2_ok_spec st sessionId hh
    refine ⟨by rw [hclr]; rfl, ?_, ?_⟩
    · unfold existsAfterClearV2
      rw [hclr]
      show sessionExistsV2 st' sessionId = .ok false
      unfold sessionExistsV2
      rw [if_pos hh', hent, anyFilterEq]
      simp
    · unfold countAfterClearV2
      rw [hclr]
      show getMessageCountV2 st' sessionId = .ok 0
      rw [getMessageCountV2_eq, getMessagesV2_healthy_none st' sessionId hh', hent]
      rw [List.filter_filter]
      have hnil : st.entries.filter
          (fun e => (e.tag == sessionId) &&
            !(matchesSession sessionId (entryKey e))) = [] := by
        rw [List.filter_eq_nil_iff]
        intro e _
        by_cases ht : e.tag = sessionId
        · simp [matchesSession_tag_self sessionId e ht]
        · simp [ht]
      rw [hnil]
      rfl

/-- C8 witness: clearing a non-existent session on both variants. -/
theorem clear_idempotent_witness :
    clearSession (clearSession emptyDB "ghost") "ghost"
      = clearSession emptyDB "ghost" ∧
    sessionExists (clearSession emptyDB "ghost") "ghost" = false ∧
    getMessageCount (clearSession emptyDB "ghost") "ghost" = 0 ∧
    (clearSessionV2 healthyEmptySt "ghost").isOk = true ∧
    existsAfterClearV2 healthyEmptySt "ghost" "ghost" = .ok false ∧
    countAfterClearV2 healthyEmptySt "ghost" "ghost" = .ok 0 :=
  ⟨(clear_idempotent emptyDB healthyEmptySt "ghost").1,
   (clear_idempotent emptyDB healthyEmptySt "ghost").2.1,
   (clear_idempotent emptyDB healthyEmptySt "ghost").2.2.1,
   ((clear_idempotent emptyDB healthyEmptySt "ghost").2.2.2 rfl).1,
   ((clear_idempotent emptyDB healthyEmptySt "ghost").2.2.2 rfl).2.1,
   ((clear_idempotent emptyDB healthyEmptySt "ghost").2.2.2 rfl).2.2⟩

/-! ## C9 — TTL refresh on append -/

/-- C9 (confirmed): every successful `append` sets the session's TTL back
to the full configured `SESSION_TTL_SECONDS` (default 3600) no matter what
TTL remained: the list store runs `EXPIRE key ttl` after the push, so a
session appended to less than `ttl` seconds ago never expires; the
`MessageHistory` store expires every key of the session — in particular the
key of the message just appended — to the full duration. -/
theorem ttl_refresh_on_append (cfg : Config) (db : RedisDB) (st : MHState)
    (sessionId role content entryId : String) (t : Nat) :
    (addMessage cfg db sessionId role content).ttl (sessionKey sessionId)
      = some cfg.sessionTtl ∧
    (t < cfg.sessionTtl →
      sessionExists (advanceTime (addMessage cfg db sessionId role content) t)
        sessionId = true) ∧
    (st.healthy = true →
      ttlAfterAddV2 cfg st sessionId role content entryId
        (entryKey ⟨sessionId, entryId,
          ⟨if role = "assistant" then "llm" else role, content⟩⟩)
        = .ok (some cfg.sessionTtl)) := by
  refine ⟨by simp [addMessage], ?_, ?_⟩
  · intro ht
    have hns : ¬ (cfg.sessionTtl ≤ t) := by omega
    simp [sessionExists, advanceTime, addMessage, hns]
  · intro hh
    obtain ⟨st1, hstep, -, -, httl⟩ :=
      addMessageV2_ok_spec cfg st sessionId role content entryId hh
    unfold ttlAfterAddV2
    rw [hstep]
    show Except.ok (st1.ttl _) = _
    rw [httl]
    have hC : matchesSession sessionId
          (entryKey ⟨sessionId, entryId,
            ⟨if role = "assistant" then "llm" else role, content⟩⟩) = true ∧
        ((st.entries ++ [MHEntry.mk sessionId entryId
            (Msg.mk (if role = "assistant" then "llm" else role) content)]).any
          (fun e => entryKey e = entryKey ⟨sessionId, entryId,
            ⟨if role = "assistant" then "llm" else role, content⟩⟩)) = true := by
      refine ⟨matchesSession_tag_self sessionId _ rfl, ?_⟩
      simp
    simp [hC.1, hC.2]

/-- C9 witness: a fresh append carries the default 3600-second TTL and the
session survives 3599 seconds of idleness. -/
theorem ttl_refresh_on_append_witness :
    (addMessage defaultConfig emptyDB "s" "user" "hi").ttl (sessionKey "s")
      = some 3600 ∧
    sessionExists (advanceTime (addMessage defaultConfig emptyDB "s" "user" "hi") 3599)
      "s" = true ∧
    ttlAfterAddV2 defaultConfig healthyEmptySt "s" "user" "hi" "e1"
      (entryKey ⟨"s", "e1", ⟨"user", "hi"⟩⟩) = .ok (some 3600) :=
  ⟨(ttl_refresh_on_append defaultConfig emptyDB healthyEmptySt "s" "user" "hi" "e1" 3599).1,
   (ttl_refresh_on_append defaultConfig emptyDB healthyEmptySt "s" "user" "hi" "e1" 3599).2.1
     (by decide),
   (ttl_refresh_on_append defaultConfig emptyDB healthyEmptySt "s" "user" "hi" "e1" 3599).2.2
     rfl⟩

/-! ## C6 — role normalization round-trip -/

theorem except_bind_ok {ε α β : Type} (a : α) (f : α → Except ε β) :
    (Except.ok (ε := ε) a).bind f = f a := rfl

theorem except_map_ok {ε α β : Type} (a : α) (f : α → β) :
    (Except.ok (ε := ε) a).map f = .ok (f a) := rfl

theorem mapped_entries_roundtrip (sessionId : String)
    (msgs : List (String × String × String))
    (hroles : ∀ p ∈ msgs, p.1 = "user" ∨ p.1 = "assistant") :
    (((msgs.map (fun p => MHEntry.mk sessionId p.2.2
        (Msg.mk (if p.1 = "assistant" then "llm" else p.1) p.2.1))).filter
          (fun e => e.tag == sessionId)).map (·.msg)).map llmBack
      = msgs.map (fun p => ⟨p.1, p.2.1⟩) := by
  induction msgs with
  | nil => rfl
  | cons a tl ih =>
    have ha := hroles a (by simp)
    have htl : ∀ p ∈ tl, p.1 = "user" ∨ p.1 = "assistant" :=
      fun p hp => hroles p (by simp [hp])
    simp only [List.map_cons, List.filter_cons, beq_self_eq_true, if_pos]
    rw [ih htl, llmBack_roundtrip ha]

/-- C6 (confirmed): on the `MessageHistory`-based store, `add_message`
renames `assistant` to the internal storage role `llm` and `get_messages`
renames it back; appending any sequence of `user`/`assistant` messages to a
fresh session and reading the transcript returns exactly the appended
role/content pairs — so `assistant` round-trips to `assistant`, `user` to
`user`, and every role a caller sees is `user` or `assistant`, with the
internal renaming invisible. -/
theorem role_roundtrip (cfg : Config) (st : MHState) (sessionId : String)
    (msgs : List (String × String × String))
    (hh : st.healthy = true)
    (hfresh : st.entries.filter (fun e => e.tag == sessionId) = [])
    (hroles : ∀ p ∈ msgs, p.1 = "user" ∨ p.1 = "assistant") :
    appendThenGetV2 cfg st sessionId msgs
      = .ok (msgs.map (fun p => ⟨p.1, p.2.1⟩)) := by
  obtain ⟨st', hrun, hh', hent⟩ := appendAllV2_spec cfg sessionId msgs st hh
  unfold appendThenGetV2
  rw [hrun, except_bind_ok]
  rw [getMessagesV2_healthy_none st' sessionId hh', hent, List.filter_append,
    hfresh, List.nil_append]
  exact congrArg Except.ok (mapped_entries_roundtrip sessionId msgs hroles)

/-- C6 witness: an `assistant` then a `user` message on a fresh session
read back with exactly the stored roles. -/
theorem role_roundtrip_witness :
    appendThenGetV2 defaultConfig healthyEmptySt "s"
        [("assistant", "hi", "e1"), ("user", "yo", "e2")]
      = .ok [⟨"assistant", "hi"⟩, ⟨"user", "yo"⟩] :=
  role_roundtrip defaultConfig healthyEmptySt "s"
    [("assistant", "hi", "e1"), ("user", "yo", "e2")] rfl rfl (by decide)

/-! ## C1 — failure surfacing vs. swallowing -/

/-- C1 counterexample: with the tier unreachable (`downSt`, which holds a
stored message), the claim demands `get_transcript` and `count` surface
`StoreUnavailable`; instead the `except Exception` blocks in `get_messages`
and `get_message_count` swallow the connectivity failure and report an
empty transcript and a zero count. -/
theorem getMessagesV2_swallows_unavailable :
    getMessagesV2 downSt "s" none = .ok [] ∧
    getMessagesV2 downSt "s" none ≠ .error .unavailable ∧
    getMessageCountV2 downSt "s" = .ok 0 := by
  have h1 : getMessagesV2 downSt "s" none = .ok [] := rfl
  exact ⟨h1, by rw [h1]; exact fun hc => Except.noConfusion hc, rfl⟩

/-- C1 (amended): on the `MessageHistory`-based Store, `append`, `clear`
and `exists` surface a tier connectivity failure to the caller unchanged,
but the read path does not: `get_transcript` and `count` catch every
retrieval error — connectivity failures included — and normalize it to an
empty transcript / zero count, exactly as they normalize the legitimate
unknown-or-empty-session case. -/
theorem memoryServiceV2_failure_semantics (cfg : Config) (st : MHState)
    (sessionId role content entryId : String) (limit : Option Int) :
    (st.healthy = false →
      addMessageV2 cfg st sessionId role content entryId = .error .unavailable ∧
      clearSessionV2 st sessionId = .error .unavailable ∧
      sessionExistsV2 st sessionId = .error .unavailable ∧
      getMessagesV2 st sessionId limit = .ok [] ∧
      getMessageCountV2 st sessionId = .ok 0) ∧
    (st.healthy = true →
      st.entries.filter (fun e => e.tag == sessionId) = [] →
      getMessagesV2 st sessionId none = .ok [] ∧
      getMessageCountV2 st sessionId = .ok 0) := by
  constructor
  · intro hh
    have hmsgs : ∀ lim, getMessagesV2 st sessionId lim = .ok [] := by
      intro lim
      simp [getMessagesV2, getRecentV2, hh]
    refine ⟨?_, ?_, ?_, hmsgs limit, ?_⟩
    · unfold addMessageV2
      rw [if_neg (by simp [hh])]
    · unfold clearSessionV2
      rw [if_neg (by simp [hh])]
    · unfold sessionExistsV2
      rw [if_neg (by simp [hh])]
    · rw [getMessageCountV2_eq, hmsgs none]
      rfl
  · intro hh hfresh
    have hm : getMessagesV2 st sessionId none = .ok [] := by
      rw [getMessagesV2_healthy_none st sessionId hh, hfresh]
      rfl
    exact ⟨hm, by rw [getMessageCountV2_eq, hm]; rfl⟩

/-- C1 witness: the amended behavior at the unreachable state `downSt` and
the empty-session normalization at a reachable empty store. -/
theorem memoryServiceV2_failure_semantics_witness :
    addMessageV2 defaultConfig downSt "s" "user" "x" "e9" = .error .unavailable ∧
    clearSessionV2 downSt "s" = .error .unavailable ∧
    sessionExistsV2 downSt "s" = .error .unavailable ∧
    getMessagesV2 downSt "s" (some 2) = .ok [] ∧
    getMessageCountV2 downSt "s" = .ok 0 ∧
    getMessagesV2 healthyEmptySt "nosession" none = .ok [] := by
  have A := (memoryServiceV2_failure_semantics defaultConfig downSt
    "s" "user" "x" "e9" (some 2)).1 rfl
  have B := ((memoryServiceV2_failure_semantics defaultConfig healthyEmptySt
    "nosession" "user" "x" "e9" none).2 rfl rfl).1
  exact ⟨A.1, A.2.1, A.2.2.1, A.2.2.2.1, A.2.2.2.2, B⟩

/-! ## C5 — stateless mode still logs both turns -/

/-- C5 counterexample: the claim quantifies over every chat request, but
the stateless branch of the `stateless-chat-app` router never touches the
memory service: a stateless request leaves the store byte-for-byte
unchanged, so the session transcript stays empty instead of containing the
user and assistant turns the claim requires. -/
theorem legacy_stateless_does_not_log :
    (chatRequestLegacy defaultConfig oracleDeps emptyDB .stateless "s" "hello").1
      = emptyDB ∧
    getMessages (chatRequestLegacy defaultConfig oracleDeps emptyDB
      .stateless "s" "hello").1 "s" none = [] :=
  ⟨rfl, rfl⟩

/-- C5 (amended): the current backend router (`src/backend/main.py`)
behaves as claimed when its memory service is up: a stateless request calls
the provider with only the current message (the reply is the stateless
adapter applied to the message alone) yet appends both the user and the
assistant turn to the session transcript, and a stateful request likewise
appends both turns while handing the accumulated transcript to the
provider — so any interleaving of the two modes accumulates every turn in
order. The legacy `stateless-chat-app` router does not have this property:
its stateless branch appends nothing (see the counterexample). -/
theorem chat_appends_both_turns (cfg : Config) (deps : ChatDeps)
    (st : MHState) (sessionId msg id1 id2 : String)
    (hh : st.healthy = true) :
    chatReplyV2 cfg deps st .stateless sessionId msg id1 id2
      = .ok (deps.statelessReply msg) ∧
    chatTranscriptAfterV2 cfg deps st .stateless sessionId msg id1 id2
      = (getMessagesV2 st sessionId none).map
          (· ++ [⟨"user", msg⟩, ⟨"assistant", deps.statelessReply msg⟩]) ∧
    chatTranscriptAfterV2 cfg deps st .stateful sessionId msg id1 id2
      = (getMessagesV2 st sessionId none).map
          (fun prior => prior ++ [⟨"user", msg⟩,
            ⟨"assistant", deps.statefulReply (prior ++ [⟨"user", msg⟩])⟩]) := by
  obtain ⟨st1, h1, hh1, hent1, -⟩ :=
    addMessageV2_ok_spec cfg st sessionId "user" msg id1 hh
  have hprior := getMessagesV2_healthy_none st sessionId hh
  have hget1 : getMessagesV2 st1 sessionId none
      = .ok (((st.entries.filter (fun e => e.tag == sessionId)).map (·.msg)).map llmBack
          ++ [⟨"user", msg⟩]) := by
    rw [getMessagesV2_healthy_none st1 sessionId hh1, hent1, List.filter_append]
    simp [llmBack]
  constructor
  · obtain ⟨st2, h2, -, -, -⟩ :=
      addMessageV2_ok_spec cfg st1 sessionId "assistant" (deps.statelessReply msg) id2 hh1
    simp only [chatReplyV2, chatRequestV2]
    rw [h1]
    simp only [except_bind_ok]
    rw [h2]
    rfl
  constructor
  · obtain ⟨st2, h2, hh2, hent2, -⟩ :=
      addMessageV2_ok_spec cfg st1 sessionId "assistant" (deps.statelessReply msg) id2 hh1
    simp only [chatTranscriptAfterV2, chatRequestV2]
    rw [h1]
    simp only [except_bind_ok]
    rw [h2]
    simp only [except_map_ok, except_bind_ok]
    rw [getMessagesV2_healthy_none st2 sessionId hh2, hent2, hent1, hprior]
    simp [List.filter_append, llmBack]
    rfl
  · obtain ⟨st2, h2, hh2, hent2, -⟩ :=
      addMessageV2_ok_spec cfg st1 sessionId "assistant"
        (deps.statefulReply (((st.entries.filter (fun e => e.tag == sessionId)).map
          (·.msg)).map llmBack ++ [⟨"user", msg⟩])) id2 hh1
    simp only [chatTranscriptAfterV2, chatRequestV2]
    rw [h1]
    simp only [except_bind_ok]
    rw [hget1]
    simp only [except_bind_ok]
    rw [h2]
    simp only [except_map_ok, except_bind_ok]
    rw [getMessagesV2_healthy_none st2 sessionId hh2, hent2, hent1, hprior]
    simp [List.filter_append, llmBack]
    rfl

/-- C5 witness: on the current backend with an empty reachable store, a
stateless request answers from the lone current message and logs both
turns; a stateful request also logs both turns. -/
theorem chat_appends_both_turns_witness :
    chatReplyV2 defaultConfig oracleDeps healthyEmptySt .stateless "s" "hello" "e1" "e2"
      = .ok "ok" ∧
    chatTranscriptAfterV2 defaultConfig oracleDeps healthyEmptySt
        .stateless "s" "hello" "e1" "e2"
      = .ok [⟨"user", "hello"⟩, ⟨"assistant", "ok"⟩] ∧
    chatTranscriptAfterV2 defaultConfig oracleDeps healthyEmptySt
        .stateful "s" "what" "e3" "e4"
      = .ok [⟨"user", "what"⟩, ⟨"assistant", "ok"⟩] :=
  ⟨(chat_appends_both_turns defaultConfig oracleDeps healthyEmptySt
      "s" "hello" "e1" "e2" rfl).1,
   (chat_appends_both_turns defaultConfig oracleDeps healthyEmptySt
      "s" "hello" "e1" "e2" rfl).2.1,
   (chat_appends_both_turns defaultConfig oracleDeps healthyEmptySt
      "s" "what" "e3" "e4" rfl).2.2⟩

/-! ## C10 — clear leaves other sessions untouched -/

theorem anyCongr {α : Type} {p q : α → Bool} (l : List α)
    (h : ∀ a ∈ l, p a = q a) : l.any p = l.any q := by
  induction l with
  | nil => rfl
  | cons a tl ih => simp [h a (by simp), ih (fun b hb => h b (by simp [hb]))]

/-- C10 counterexample: session ids are arbitrary opaque strings, but the
`MessageHistory`-based `clear_session` deletes every key matching the glob
`chat_history:{s1}:*`; the keys of session `a:b` (of the form
`chat_history:a:b:{entry}`) match the pattern for session `a`, so
`clear("a")` wipes out the distinct session `a:b`. -/
theorem clearSessionV2_cross_session_delete :
    getMessageCountV2 stAB "a:b" = .ok 1 ∧
    sessionExistsV2 stAB "a:b" = .ok true ∧
    countAfterClearV2 stAB "a" "a:b" = .ok 0 ∧
    existsAfterClearV2 stAB "a" "a:b" = .ok false :=
  ⟨rfl, rfl, rfl, rfl⟩

/-- C10 (amended): on the list-based store the claim holds for all pairs
of distinct session ids (`sessionKey` is injective, so `DEL` of one
session's key cannot touch another's). On the `MessageHistory`-based store
it holds only when none of the tier's keys deleted for `s1` belong to
`s2` — which fails exactly when one id extends the other across a `:`
boundary, since `clear(s1)` deletes every key matching
`chat_history:{s1}:*` (see the counterexample). -/
theorem clear_frame_property (db : RedisDB) (st : MHState) (s1 s2 : String)
    (limit : Option Int) (hne : s1 ≠ s2)
    (hsafe : ∀ e ∈ st.entries, matchesSession s1 (entryKey e) = true →
      e.tag ≠ s2 ∧ matchesSession s2 (entryKey e) = false)
    (hh : st.healthy = true) :
    getMessages (clearSession db s1) s2 limit = getMessages db s2 limit ∧
    getMessageCount (clearSession db s1) s2 = getMessageCount db s2 ∧
    sessionExists (clearSession db s1) s2 = sessionExists db s2 ∧
    messagesAfterClearV2 st s1 s2 none = getMessagesV2 st s2 none ∧
    countAfterClearV2 st s1 s2 = getMessageCountV2 st s2 ∧
    existsAfterClearV2 st s1 s2 = sessionExistsV2 st s2 := by
  have hkey : sessionKey s2 ≠ sessionKey s1 :=
    fun hc => hne (sessionKey_inj hc).symm
  have hlists : (clearSession db s1).lists (sessionKey s2)
      = db.lists (sessionKey s2) := by
    simp [clearSession, hkey]
  obtain ⟨st', hclr, hh', hent, -⟩ := clearSessionV2_ok_spec st s1 hh
  have hfilter : st'.entries.filter (fun e => e.tag == s2)
      = st.entries.filter (fun e => e.tag == s2) := by
    rw [hent, List.filter_filter]
    apply List.filter_congr
    intro e he
    by_cases hm : matchesSession s1 (entryKey e) = true
    · have := (hsafe e he hm).1
      simp [hm, this]
    · simp at hm
      simp [hm]
  have hmsgs : getMessagesV2 st' s2 none = getMessagesV2 st s2 none := by
    rw [getMessagesV2_healthy_none st' s2 hh', getMessagesV2_healthy_none st s2 hh,
      hfilter]
  refine ⟨?_, ?_, ?_, ?_, ?_, ?_⟩
  · simp only [getMessages]
    rw [hlists]
  · simp only [getMessageCount]
    rw [hlists]
  · simp only [sessionExists]
    rw [hlists]
  · unfold messagesAfterClearV2
    rw [hclr]
    exact hmsgs
  · unfold countAfterClearV2
    rw [hclr]
    show getMessageCountV2 st' s2 = getMessageCountV2 st s2
    rw [getMessageCountV2_eq, getMessageCountV2_eq, hmsgs]
  · unfold existsAfterClearV2
    rw [hclr]
    show sessionExistsV2 st' s2 = sessionExistsV2 st s2
    unfold sessionExistsV2
    rw [if_pos hh', if_pos hh, hent, anyFilterEq]
    refine congrArg Except.ok (anyCongr st.entries ?_)
    intro e he
    by_cases hm : matchesSession s1 (entryKey e) = true
    · have := (hsafe e he hm).2
      simp [hm, this]
    · simp at hm
      simp [hm]

/-- C10 witness: clearing an unrelated session id leaves another session's
transcript, count and existence intact on both store variants. -/
theorem clear_frame_property_witness :
    getMessages (clearSession db1 "x") "a:b" none = getMessages db1 "a:b" none ∧
    getMessageCount (clearSession db1 "x") "a:b" = getMessageCount db1 "a:b" ∧
    sessionExists (clearSession db1 "x") "a:b" = sessionExists db1 "a:b" ∧
    messagesAfterClearV2 stAB "x" "a:b" none = getMessagesV2 stAB "a:b" none ∧
    countAfterClearV2 stAB "x" "a:b" = getMessageCountV2 stAB "a:b" ∧
    existsAfterClearV2 stAB "x" "a:b" = sessionExistsV2 stAB "a:b" :=
  clear_frame_property db1 stAB "x" "a:b" none (by decide) (by decide) rfl

end RedisChat
